import Mathlib

/-!
Shallow embedding of the basketball-shot tracker (EDDProject.py,
basketball_tracker_web.py, basketball_tracker_pi.py) and proofs of the
specification claims about it.

Conventions: pixel coordinates are integers (the code stores the output of
Python int()); quantities that the code holds as floats produced by exact
arithmetic (radii from minEnclosingCircle, calibration scales, latencies)
are rationals; quantities produced by numpy sqrt are reals.
-/

/-- A pixel position as stored in the trajectory buffer: the (x, y) pair of a
detection, already rounded to int by detect_ball. -/
abbrev Pos := ℤ × ℤ

/-- One append to a Python collections.deque with maxlen equal to cap: the new
element goes to the tail and, if the length would exceed cap, elements are
discarded from the head. All three tracker variants build the trajectory
buffer as deque(maxlen=50). -/
def dequeAppend (cap : Nat) (buf : List α) (x : α) : List α :=
  let b := buf ++ [x]
  b.drop (b.length - cap)

/-- The buffer obtained from a fresh deque(maxlen=cap) after appending every
element of xs in order. -/
def dequeOfAppends (cap : Nat) (xs : List α) : List α :=
  xs.foldl (dequeAppend cap) []

theorem length_dequeAppend (cap : Nat) (buf : List α) (x : α) :
    (dequeAppend cap buf x).length = min (buf.length + 1) cap := by
  simp only [dequeAppend, List.length_drop, List.length_append, List.length_singleton]
  omega

theorem length_dequeAppend_le (cap : Nat) (buf : List α) (x : α) :
    (dequeAppend cap buf x).length ≤ cap := by
  rw [length_dequeAppend]; omega

theorem dequeAppend_of_lt (cap : Nat) (buf : List α) (x : α)
    (h : buf.length < cap) : dequeAppend cap buf x = buf ++ [x] := by
  unfold dequeAppend
  simp only [List.length_append, List.length_singleton]
  have : buf.length + 1 - cap = 0 := by omega
  rw [this, List.drop_zero]

theorem dequeAppend_of_full (cap : Nat) (buf : List α) (x : α) (hc : 0 < cap)
    (h : buf.length = cap) : dequeAppend cap buf x = buf.drop 1 ++ [x] := by
  unfold dequeAppend
  simp only [List.length_append, List.length_singleton]
  have h1 : buf.length + 1 - cap = 1 := by omega
  rw [h1, List.drop_append_of_le_length (by omega)]

theorem length_dequeOfAppends_le (cap : Nat) (xs : List α) :
    (dequeOfAppends cap xs).length ≤ cap ∨ xs = [] := by
  cases xs with
  | nil => exact Or.inr rfl
  | cons y ys =>
    left
    suffices h : ∀ (l : List α) (acc : List α), l ≠ [] →
        (l.foldl (dequeAppend cap) acc).length ≤ cap by
      exact h (y :: ys) [] (by simp)
    intro l
    induction l with
    | nil => intro acc h; exact absurd rfl h
    | cons z zs ih =>
      intro acc _
      cases zs with
      | nil => simpa using length_dequeAppend_le cap acc z
      | cons w ws => exact ih _ (by simp)

/-- C1 claim: the Trajectory Buffer has fixed capacity 50: after any sequence
of appends into a fresh deque(maxlen=50) the snapshot length is at most 50
(every intermediate state is itself the result of a shorter sequence of
appends, so this covers all times), and an append into a buffer already
holding 50 entries puts the new entry at the tail and evicts exactly the
oldest entry at the head, keeping the remaining entries in FIFO order. -/
theorem C1_trajectory_buffer_capacity_fifo :
    (∀ xs : List (Option Pos), (dequeOfAppends 50 xs).length ≤ 50) ∧
    (∀ (buf : List (Option Pos)) (x : Option Pos), buf.length = 50 →
      dequeAppend 50 buf x = buf.drop 1 ++ [x]) := by
  constructor
  · intro xs
    rcases length_dequeOfAppends_le 50 xs with h | h
    · exact h
    · simp [h, dequeOfAppends]
  · intro buf x h
    exact dequeAppend_of_full 50 buf x (by omega) h

/-- C1 witness: the FIFO eviction law evaluated on a concrete full buffer. -/
theorem C1_trajectory_buffer_capacity_fifo_witness :
    dequeAppend 50 (List.replicate 50 (none : Option Pos)) (some (1, 2)) =
      (List.replicate 50 (none : Option Pos)).drop 1 ++ [some (1, 2)] :=
  C1_trajectory_buffer_capacity_fifo.2 _ _ (by simp)

/-- A contour as the detector sees it after the external vision calls: cv2
findContours yields the contour, cv2 contourArea its area, and cv2
minEnclosingCircle its minimum enclosing circle (center_x, center_y, radius).
The pixel geometry is opaque to the tracker, so the contour is modelled by
these observations. -/
structure Contour where
  area : ℚ
  mec : ℚ × ℚ × ℚ

/-- Python max(xs, key=k): the first element attaining the maximal key, none
on an empty list (the code guards with len(contours) > 0). -/
def pyMax (key : α → ℚ) : List α → Option α
  | [] => none
  | x :: xs => some (xs.foldl (fun b a => if key b < key a then a else b) x)

/-- Python int() on a float: truncation toward zero. -/
def pyInt (q : ℚ) : ℤ := if 0 ≤ q then ⌊q⌋ else ⌈q⌉

/-- BasketballTracker.detect_ball after the external mask pipeline: given the
contours of the cleaned mask, pick the largest contour by area, take its
minimum enclosing circle ((x, y), radius), and return the int-rounded triple
when min_ball_radius < radius < max_ball_radius, else None. Identical in all
three variants; the configured bounds are min_ball_radius = 5 and
max_ball_radius = 150. -/
def detect_ball (min_ball_radius max_ball_radius : ℚ) (contours : List Contour) :
    Option (ℤ × ℤ × ℤ) :=
  match pyMax Contour.area contours with
  | none => none
  | some largest_contour =>
    let x := largest_contour.mec.1
    let y := largest_contour.mec.2.1
    let radius := largest_contour.mec.2.2
    if min_ball_radius < radius ∧ radius < max_ball_radius then
      some (pyInt x, pyInt y, pyInt radius)
    else
      none

/-- C2 counterexample: a single contour whose minimum enclosing circle has
radius 5.5 passes the strict float check 5 < 5.5 < 150, but int() truncates
the returned radius to 5, which equals the configured minimum bound — so the
returned Detection's radius is not strictly above radius_min as the claim
states. -/
theorem C2_detect_ball_counterexample :
    detect_ball 5 150 [⟨1, (10, 10, 11/2)⟩] = some (10, 10, 5) ∧ ¬ ((5 : ℤ) > 5) := by
  refine ⟨?_, by decide⟩
  norm_num [detect_ball, pyMax, pyInt]

/-- C2 amended: whenever detect_ball returns a present Detection it is the
int-truncated (center_x, center_y, radius) of the minimum enclosing circle of
the maximum-area contour, and the strict bound check
min_ball_radius < radius < max_ball_radius holds of the un-rounded radius;
with the configured bounds 5 and 150, the returned integer radius satisfies
5 ≤ radius < 150 (it can equal the minimum bound after truncation, never the
maximum). -/
theorem C2_detect_ball_amended :
    (∀ (min_r max_r : ℚ) (cs : List Contour) (x y r : ℤ),
      detect_ball min_r max_r cs = some (x, y, r) →
      ∃ c, pyMax Contour.area cs = some c ∧
        x = pyInt c.mec.1 ∧ y = pyInt c.mec.2.1 ∧ r = pyInt c.mec.2.2 ∧
        min_r < c.mec.2.2 ∧ c.mec.2.2 < max_r) ∧
    (∀ (cs : List Contour) (x y r : ℤ),
      detect_ball 5 150 cs = some (x, y, r) → 5 ≤ r ∧ r < 150) := by
  have main : ∀ (min_r max_r : ℚ) (cs : List Contour) (x y r : ℤ),
      detect_ball min_r max_r cs = some (x, y, r) →
      ∃ c, pyMax Contour.area cs = some c ∧
        x = pyInt c.mec.1 ∧ y = pyInt c.mec.2.1 ∧ r = pyInt c.mec.2.2 ∧
        min_r < c.mec.2.2 ∧ c.mec.2.2 < max_r := by
    intro min_r max_r cs x y r h
    unfold detect_ball at h
    cases hm : pyMax Contour.area cs with
    | none => rw [hm] at h; exact absurd h (by simp)
    | some c =>
      rw [hm] at h
      simp only at h
      by_cases hcond : min_r < c.mec.2.2 ∧ c.mec.2.2 < max_r
      · rw [if_pos hcond] at h
        have h2 := Option.some.inj h
        rw [Prod.ext_iff, Prod.ext_iff] at h2
        exact ⟨c, rfl, h2.1.symm, h2.2.1.symm, h2.2.2.symm, hcond⟩
      · rw [if_neg hcond] at h; exact absurd h (by simp)
  refine ⟨main, ?_⟩
  intro cs x y r h
  obtain ⟨c, _, _, _, hr, h5, h150⟩ := main 5 150 cs x y r h
  have hpos : (0 : ℚ) ≤ c.mec.2.2 := le_of_lt (lt_trans (by norm_num) h5)
  rw [hr, pyInt, if_pos hpos]
  constructor
  · exact Int.le_floor.mpr (by exact_mod_cast le_of_lt h5)
  · exact Int.floor_lt.mpr (by exact_mod_cast h150)

/-- C2 witness: the amended theorem evaluated on a contour whose minimum
enclosing circle is ((10, 10), 7). -/
theorem C2_detect_ball_amended_witness :
    (∃ c, pyMax Contour.area [⟨1, (10, 10, 7)⟩] = some c ∧
      (10 : ℤ) = pyInt c.mec.1 ∧ (10 : ℤ) = pyInt c.mec.2.1 ∧
      (7 : ℤ) = pyInt c.mec.2.2 ∧ (5 : ℚ) < c.mec.2.2 ∧ c.mec.2.2 < 150) ∧
    ((5 : ℤ) ≤ 7 ∧ (7 : ℤ) < 150) :=
  ⟨C2_detect_ball_amended.1 5 150 _ 10 10 7 (by norm_num [detect_ball, pyMax, pyInt]),
   C2_detect_ball_amended.2 [⟨1, (10, 10, 7)⟩] 10 10 7
     (by norm_num [detect_ball, pyMax, pyInt])⟩

/-- BasketballTracker.calculate_distance_from_hoop, identical in all three
variants: None when the hoop position or the pixels-per-meter scale is unset,
otherwise the Euclidean pixel distance between ball and hoop divided by
pixels_per_meter. Coordinates are int pixels; the scale is a float held
exactly as a rational; the numpy sqrt result is a real. -/
noncomputable def calculate_distance_from_hoop
    (hoop_position : Option (ℤ × ℤ)) (pixels_per_meter : Option ℚ)
    (ball_pos : ℤ × ℤ) : Option ℝ :=
  match hoop_position, pixels_per_meter with
  | some hoop, some ppm =>
    some (Real.sqrt (((ball_pos.1 - hoop.1) ^ 2 + (ball_pos.2 - hoop.2) ^ 2 : ℤ) : ℝ)
      / (ppm : ℝ))
  | _, _ => none

/-- C3 claim: with hoop and scale both set (and the scale positive, as any
calibrated scale is), the Distance Estimator returns exactly the Euclidean
pixel distance between ball and hoop divided by pixels_per_meter, that value
is non-negative, and on hoop (100,100), scale 50 px/m, ball (100,150) it is
exactly 1 meter. -/
theorem C3_calculate_distance_from_hoop (hoop : ℤ × ℤ) (ppm : ℚ) (ball : ℤ × ℤ)
    (hppm : 0 < ppm) :
    calculate_distance_from_hoop (some hoop) (some ppm) ball =
      some (Real.sqrt (((ball.1 - hoop.1) ^ 2 + (ball.2 - hoop.2) ^ 2 : ℤ) : ℝ)
        / (ppm : ℝ)) ∧
    (∀ d : ℝ, calculate_distance_from_hoop (some hoop) (some ppm) ball = some d →
      0 ≤ d) ∧
    calculate_distance_from_hoop (some (100, 100)) (some 50) (100, 150) = some 1 := by
  refine ⟨rfl, ?_, ?_⟩
  · intro d hd
    have h2 := Option.some.inj hd
    rw [← h2]
    exact div_nonneg (Real.sqrt_nonneg _) (by exact_mod_cast le_of_lt hppm)
  · unfold calculate_distance_from_hoop
    norm_num
    rw [show (2500 : ℝ) = 50 ^ 2 by norm_num, Real.sqrt_sq (by norm_num)]
    norm_num

/-- C3 witness: the exact 1.00 m example, obtained from the theorem at the
concrete calibration. -/
theorem C3_calculate_distance_from_hoop_witness :
    calculate_distance_from_hoop (some (100, 100)) (some 50) (100, 150) = some 1 :=
  (C3_calculate_distance_from_hoop (100, 100) 50 (100, 150) (by norm_num)).2.2

/-- The calibration fields of a tracker right after construction. -/
structure CalibInit where
  hoop_position : Option (ℤ × ℤ)
  pixels_per_meter : Option ℚ

/-- BasketballTracker.__init__ (EDDProject.py): hoop_position = None,
pixels_per_meter = None. -/
def basketballTracker_init : CalibInit := ⟨none, none⟩

/-- BasketballTrackerWeb.__init__: hoop_position = None,
pixels_per_meter = None. -/
def basketballTrackerWeb_init : CalibInit := ⟨none, none⟩

/-- BasketballTrackerPi.__init__: hoop_position = None, but
pixels_per_meter = 100, the default calibration hard-coded in the source. -/
def basketballTrackerPi_init : CalibInit := ⟨none, some 100⟩

/-- C4 counterexample: in the Pi variant the pixels-per-meter scale is not
unset at construction — it is initialized to the default 100 before any
explicit calibration, contradicting the claim for that variant. -/
theorem C4_calibration_counterexample :
    basketballTrackerPi_init.pixels_per_meter = some 100 ∧
    basketballTrackerPi_init.pixels_per_meter ≠ none := by
  constructor
  · rfl
  · simp [basketballTrackerPi_init]

/-- C4 amended: in the EDDProject and web variants both calibration fields
start unset; in the Pi variant the hoop starts unset but pixels_per_meter
defaults to 100; and in every variant the Distance Estimator returns None
whenever either calibration field is unset. -/
theorem C4_calibration_amended :
    basketballTracker_init = ⟨none, none⟩ ∧
    basketballTrackerWeb_init = ⟨none, none⟩ ∧
    basketballTrackerPi_init = ⟨none, some 100⟩ ∧
    (∀ (hoop : Option (ℤ × ℤ)) (ppm : Option ℚ) (ball : ℤ × ℤ),
      hoop = none ∨ ppm = none →
      calculate_distance_from_hoop hoop ppm ball = none) := by
  refine ⟨rfl, rfl, rfl, ?_⟩
  intro hoop ppm ball h
  rcases h with h | h
  · subst h; rfl
  · subst h
    cases hoop <;> rfl

/-- C4 witness: distance with a set hoop but unset scale is None. -/
theorem C4_calibration_amended_witness :
    calculate_distance_from_hoop (some (3, 4)) none (7, 8) = none :=
  C4_calibration_amended.2.2.2 (some (3, 4)) none (7, 8) (Or.inr rfl)

/-- BasketballTrackerWeb.calculate_ball_speed (identical in the Pi variant):
return 0 when the trajectory has fewer than two entries; collect the
non-absent positions among the last five entries; return 0 when fewer than
two remain; otherwise take the pixel displacement between the last and the
second-to-last valid position, convert via pixels_per_meter (skipped when the
scale is unset or zero, Python truthiness), and divide by the most recent
per-frame latency when it is positive, else return 0. -/
noncomputable def calculate_ball_speed
    (ball_positions : List (Option Pos))
    (pixels_per_meter : Option ℚ) (frame_latency : ℚ) : ℝ :=
  if ball_positions.length < 2 then 0
  else
    let valid_positions :=
      (ball_positions.drop (ball_positions.length - 5)).filterMap id
    if valid_positions.length < 2 then 0
    else
      match valid_positions.reverse with
      | p1 :: p2 :: _ =>
        let dx := p1.1 - p2.1
        let dy := p1.2 - p2.2
        let pixel_distance := Real.sqrt ((dx ^ 2 + dy ^ 2 : ℤ) : ℝ)
        (match pixels_per_meter with
        | some ppm =>
          if ppm ≠ 0 then
            if 0 < frame_latency then
              pixel_distance / (ppm : ℝ) / (frame_latency : ℝ)
            else 0
          else 0
        | none => 0)
      | _ => 0

theorem calculate_ball_speed_short (bp : List (Option Pos)) (ppm : Option ℚ)
    (lat : ℚ) (h : bp.length < 2) : calculate_ball_speed bp ppm lat = 0 := by
  unfold calculate_ball_speed
  rw [if_pos h]

theorem calculate_ball_speed_few_valid (bp : List (Option Pos)) (ppm : Option ℚ)
    (lat : ℚ) (h : ((bp.drop (bp.length - 5)).filterMap id).length < 2) :
    calculate_ball_speed bp ppm lat = 0 := by
  unfold calculate_ball_speed
  by_cases h2 : bp.length < 2
  · rw [if_pos h2]
  · rw [if_neg h2]
    simp only
    rw [if_pos h]

theorem calculate_ball_speed_eq (bp : List (Option Pos)) (ppm lat : ℚ)
    (p1 p2 : Pos) (rest : List Pos)
    (hrev : ((bp.drop (bp.length - 5)).filterMap id).reverse = p1 :: p2 :: rest)
    (hlen : 2 ≤ bp.length) (hppm : ppm ≠ 0) (hlat : 0 < lat) :
    calculate_ball_speed bp (some ppm) lat =
      Real.sqrt (((p1.1 - p2.1) ^ 2 + (p1.2 - p2.2) ^ 2 : ℤ) : ℝ)
        / (ppm : ℝ) / (lat : ℝ) := by
  unfold calculate_ball_speed
  rw [if_neg (by omega)]
  simp only
  have hv : 2 ≤ ((bp.drop (bp.length - 5)).filterMap id).length := by
    have := congrArg List.length hrev
    simp only [List.length_reverse, List.length_cons] at this
    omega
  rw [if_neg (by omega), hrev]
  simp only
  rw [if_pos hppm, if_pos hlat]

/-- C5 claim: the Speed Estimator takes the two most recent non-absent
entries among the last 5 trajectory entries; with fewer than two trajectory
entries, or fewer than two valid entries among the last five, it returns 0;
otherwise (scale set and nonzero, latency positive) it returns the Euclidean
pixel displacement between those two entries divided by pixels_per_meter and
then by the most recent per-frame latency; on last valid positions (0,0) and
(30,40) with pixels_per_meter 10 and latency 0.5 s it returns 10 m/s. -/
theorem C5_calculate_ball_speed :
    (∀ (bp : List (Option Pos)) (ppm : Option ℚ) (lat : ℚ), bp.length < 2 →
      calculate_ball_speed bp ppm lat = 0) ∧
    (∀ (bp : List (Option Pos)) (ppm : Option ℚ) (lat : ℚ),
      ((bp.drop (bp.length - 5)).filterMap id).length < 2 →
      calculate_ball_speed bp ppm lat = 0) ∧
    (∀ (bp : List (Option Pos)) (ppm lat : ℚ) (p1 p2 : Pos) (rest : List Pos),
      ((bp.drop (bp.length - 5)).filterMap id).reverse = p1 :: p2 :: rest →
      2 ≤ bp.length → ppm ≠ 0 → 0 < lat →
      calculate_ball_speed bp (some ppm) lat =
        Real.sqrt (((p1.1 - p2.1) ^ 2 + (p1.2 - p2.2) ^ 2 : ℤ) : ℝ)
          / (ppm : ℝ) / (lat : ℝ)) ∧
    calculate_ball_speed [some (0, 0), some (30, 40)] (some 10) (1 / 2) = 10 := by
  refine ⟨calculate_ball_speed_short, calculate_ball_speed_few_valid,
    calculate_ball_speed_eq, ?_⟩
  have h := calculate_ball_speed_eq [some (0, 0), some (30, 40)] 10 (1 / 2)
    (30, 40) (0, 0) [] (by rfl) (by norm_num) (by norm_num) (by norm_num)
  rw [h]
  push_cast
  norm_num
  rw [show (2500 : ℝ) = 50 ^ 2 by norm_num, Real.sqrt_sq (by norm_num)]
  norm_num

/-- C5 witness: the exact-speed branch applied to the concrete trajectory of
the claim, all hypotheses discharged by evaluation. -/
theorem C5_calculate_ball_speed_witness :
    calculate_ball_speed [some (0, 0), some (30, 40)] (some 10) (1 / 2) =
      Real.sqrt ((((30 : ℤ) - 0) ^ 2 + ((40 : ℤ) - 0) ^ 2 : ℤ) : ℝ)
        / ((10 : ℚ) : ℝ) / (((1 : ℚ) / 2 : ℚ) : ℝ) :=
  C5_calculate_ball_speed.2.2.1 [some (0, 0), some (30, 40)] 10 (1 / 2)
    (30, 40) (0, 0) [] (by rfl) (by norm_num) (by norm_num) (by norm_num)

/-- The max_speed update performed at each broadcast tick in
BasketballTrackerWeb.broadcast_data and BasketballTrackerPi.broadcast_data:
if current_speed > max_speed then max_speed is replaced by current_speed. -/
noncomputable def broadcast_update_max_speed (max_speed current_speed : ℝ) : ℝ :=
  if current_speed > max_speed then current_speed else max_speed

/-- The max_speed value after a session whose broadcast ticks observed the
given current speeds in order, starting from the initial max_speed = 0. -/
noncomputable def max_speed_after (speeds : List ℝ) : ℝ :=
  speeds.foldl broadcast_update_max_speed 0

theorem le_foldl_update_max (b : ℝ) (l : List ℝ) :
    b ≤ l.foldl broadcast_update_max_speed b := by
  induction l generalizing b with
  | nil => exact le_refl b
  | cons s rest ih =>
    refine le_trans ?_ (ih (broadcast_update_max_speed b s))
    unfold broadcast_update_max_speed
    split <;> [exact le_of_lt (by assumption); exact le_refl b]

theorem mem_le_foldl_update_max (b : ℝ) (l : List ℝ) :
    ∀ s ∈ l, s ≤ l.foldl broadcast_update_max_speed b := by
  induction l generalizing b with
  | nil => intro s hs; exact absurd hs (by simp)
  | cons t rest ih =>
    intro s hs
    rcases List.mem_cons.mp hs with h | h
    · subst h
      refine le_trans ?_ (le_foldl_update_max (broadcast_update_max_speed b s) rest)
      unfold broadcast_update_max_speed
      split <;> [exact le_refl s; exact le_of_not_lt (by assumption)]
    · exact ih (broadcast_update_max_speed b t) s h

theorem foldl_update_max_mem_or (b : ℝ) (l : List ℝ) :
    l.foldl broadcast_update_max_speed b = b ∨
      l.foldl broadcast_update_max_speed b ∈ l := by
  induction l generalizing b with
  | nil => exact Or.inl rfl
  | cons t rest ih =>
    rw [List.foldl_cons]
    rcases ih (broadcast_update_max_speed b t) with h | h
    · rw [h]
      unfold broadcast_update_max_speed
      split
      · exact Or.inr (List.mem_cons_self t rest)
      · exact Or.inl rfl
    · exact Or.inr (List.mem_cons_of_mem t h)

/-- C6 claim: over any session, the running max_speed reported at a later
broadcast tick is at least the value reported at any earlier tick (appending
further observed speeds never decreases it), and whenever at least one speed
has been observed and all observed speeds are non-negative (as all speeds the
estimator produces are), the running value equals the maximum speed observed
so far: it is one of the observed speeds and bounds all of them. -/
theorem C6_max_speed_monotone :
    (∀ l1 l2 : List ℝ, max_speed_after l1 ≤ max_speed_after (l1 ++ l2)) ∧
    (∀ l : List ℝ, (∀ s ∈ l, 0 ≤ s) → l ≠ [] →
      max_speed_after l ∈ l ∧ ∀ s ∈ l, s ≤ max_speed_after l) := by
  constructor
  · intro l1 l2
    unfold max_speed_after
    rw [List.foldl_append]
    exact le_foldl_update_max _ l2
  · intro l hnn hne
    refine ⟨?_, mem_le_foldl_update_max 0 l⟩
    unfold max_speed_after
    rcases foldl_update_max_mem_or 0 l with h | h
    · cases l with
      | nil => exact absurd rfl hne
      | cons t rest =>
        have h1 : t ≤ (t :: rest).foldl broadcast_update_max_speed 0 :=
          mem_le_foldl_update_max 0 (t :: rest) t (List.mem_cons_self t rest)
        have h0 : 0 ≤ t := hnn t (List.mem_cons_self t rest)
        have ht : t = 0 := le_antisymm (h ▸ h1) h0
        rw [h, ← ht]
        exact List.mem_cons_self t rest
    · exact h

/-- C6 witness: the monotonicity and the observed-maximum property evaluated
on the concrete speed sequence 1, 3, 2 extended by 5. -/
theorem C6_max_speed_monotone_witness :
    max_speed_after [(1 : ℝ), 3, 2] ≤ max_speed_after ([(1 : ℝ), 3, 2] ++ [5]) ∧
    max_speed_after [(1 : ℝ), 3, 2] ∈ [(1 : ℝ), 3, 2] :=
  ⟨C6_max_speed_monotone.1 [1, 3, 2] [5],
   (C6_max_speed_monotone.2 [1, 3, 2]
     (by intro s hs; fin_cases hs <;> norm_num)
     (by simp)).1⟩

/-- The observations one iteration of the tracking loop makes: the value of
the keep-running flag read at the loop head, and the success flag returned by
the frame capture. -/
structure CycleIn where
  running : Bool
  capOk : Bool

/-- Externally visible resource events of a loop execution. -/
inductive LoopEv
  | capture
  | release
deriving DecidableEq

/-- BasketballTrackerWeb.tracking_loop (and identically
BasketballTrackerPi.tracking_loop): while the running flag holds, capture a
frame and break on failure; after the loop exits — whether by the flag going
false or by the capture-failure break — self.cleanup() runs and releases the
frame-source handle once. An exhausted input schedule stands for the stop
request arriving that cycle. The trace records captures and handle
releases. -/
def tracking_loop_trace : List CycleIn → List LoopEv
  | [] => [.release]
  | c :: rest =>
    if c.running then
      if c.capOk then .capture :: tracking_loop_trace rest
      else [.capture, .release]
    else [.release]

/-- BasketballTracker.run_headless (EDDProject.py): same loop shape — while
is_running, process_frame captures and the loop breaks when no frame comes —
but after the loop run_headless simply returns; cleanup() exists on the class
yet is never invoked on these exit paths (no caller in the module invokes
it), so no release event is emitted. -/
def run_headless_trace : List CycleIn → List LoopEv
  | [] => []
  | c :: rest =>
    if c.running then
      if c.capOk then .capture :: run_headless_trace rest
      else [.capture]
    else []

/-- C7 counterexample: in EDDProject.py the frame-source handle is not
released on either exit path of run_headless — neither on the
capture-failure break (first conjunct) nor on the quit request via the
keep-running flag (second conjunct) — contradicting the claim that every
exit path releases the handle. -/
theorem C7_release_counterexample :
    (run_headless_trace [⟨true, false⟩]).count LoopEv.release = 0 ∧
    (run_headless_trace [⟨false, true⟩]).count LoopEv.release = 0 := by
  constructor <;> rfl

/-- C7 amended: in the web and Pi variants the tracking loop releases the
frame-source handle exactly once on every exit path (quit via the
keep-running flag, capture-failure break, or stop request), while
EDDProject's run_headless never releases it on any exit path. -/
theorem C7_release_amended :
    (∀ cycles : List CycleIn,
      (tracking_loop_trace cycles).count LoopEv.release = 1) ∧
    (∀ cycles : List CycleIn,
      (run_headless_trace cycles).count LoopEv.release = 0) := by
  constructor
  · intro cycles
    induction cycles with
    | nil => rfl
    | cons c rest ih =>
      unfold tracking_loop_trace
      by_cases hr : c.running
      · rw [if_pos hr]
        by_cases hc : c.capOk
        · rw [if_pos hc]
          simpa using ih
        · rw [if_neg hc]; rfl
      · rw [if_neg hr]; rfl
  · intro cycles
    induction cycles with
    | nil => rfl
    | cons c rest ih =>
      unfold run_headless_trace
      by_cases hr : c.running
      · rw [if_pos hr]
        by_cases hc : c.capOk
        · rw [if_pos hc]
          simpa using ih
        · rw [if_neg hc]; rfl
      · rw [if_neg hr]; rfl

/-- Modelled from the spec: no set_scale operation exists anywhere in the
repository source (only the hoop half of calibration is settable, via the
calibrate_hoop handler); spec section 4.3 specifies
set_scale(known_distance_m, measured_pixels) computing
pixels_per_meter = measured_pixels / known_distance_m, reporting an
invalid-input condition to the caller when known_distance_m is zero instead
of crashing on the division. -/
def set_scale (known_distance_m measured_pixels : ℚ) : Except String ℚ :=
  if known_distance_m = 0 then
    Except.error "invalid input: known_distance_m must be nonzero"
  else
    Except.ok (measured_pixels / known_distance_m)

/-- C8 claim: set_scale computes measured_pixels / known_distance_m for any
nonzero known distance — in particular set_scale 2 100 yields 50 — and for a
zero known distance it reports an invalid-input error to the caller rather
than crashing on an unhandled division by zero. -/
theorem C8_set_scale :
    (∀ known_distance_m measured_pixels : ℚ, known_distance_m ≠ 0 →
      set_scale known_distance_m measured_pixels =
        Except.ok (measured_pixels / known_distance_m)) ∧
    set_scale 2 100 = Except.ok 50 ∧
    set_scale 0 100 = Except.error "invalid input: known_distance_m must be nonzero" := by
  refine ⟨?_, ?_, rfl⟩
  · intro d m h
    unfold set_scale
    rw [if_neg h]
  · unfold set_scale
    norm_num

/-- C8 witness: the nonzero branch evaluated at the concrete calibration of
the claim. -/
theorem C8_set_scale_witness :
    set_scale 2 100 = Except.ok ((100 : ℚ) / 2) :=
  C8_set_scale.1 2 100 (by norm_num)

/-- The trajectory-buffer update performed by one processed cycle
(BasketballTracker.process_frame in EDDProject.py; the same two branches
appear in the tracking loops of the web and Pi variants): on a present
detection append its (x, y), on an absent detection append None. -/
def process_frame_update (buf : List (Option Pos)) (ball_info : Option (ℤ × ℤ × ℤ)) :
    List (Option Pos) :=
  match ball_info with
  | some info => dequeAppend 50 buf (some (info.1, info.2.1))
  | none => dequeAppend 50 buf none

/-- C9 claim: a cycle on which the detector returns absent appends exactly
one None entry at the tail of the Trajectory Buffer: the updated buffer ends
in None, below capacity it is exactly the old buffer plus one None, and at
capacity it is the old buffer minus its head plus one None — the gap is
recorded in temporal alignment, never silently skipped. -/
theorem C9_absent_cycle_appends_none (buf : List (Option Pos))
    (h : buf.length ≤ 50) :
    process_frame_update buf none = dequeAppend 50 buf none ∧
    (process_frame_update buf none).getLast? = some none ∧
    (buf.length < 50 → process_frame_update buf none = buf ++ [none]) ∧
    (buf.length = 50 → process_frame_update buf none = buf.drop 1 ++ [none]) := by
  refine ⟨rfl, ?_, ?_, ?_⟩
  · show (dequeAppend 50 buf none).getLast? = some none
    unfold dequeAppend
    simp only [List.length_append, List.length_singleton]
    rw [List.drop_append_of_le_length (by omega), List.getLast?_concat]
  · intro hlt
    exact dequeAppend_of_lt 50 buf none hlt
  · intro heq
    exact dequeAppend_of_full 50 buf none (by omega) heq

/-- C9 witness: the absent-cycle update evaluated on a concrete short
buffer. -/
theorem C9_absent_cycle_appends_none_witness :
    process_frame_update [some (3, 4)] none = [some (3, 4), none] := by
  have h := (C9_absent_cycle_appends_none [some (3, 4)] (by simp)).2.2.1 (by simp)
  simpa using h

/-- The distance field of the Metrics Snapshot assembled by broadcast_data in
the web variant: Python publishes round(current_distance, 2) if
current_distance else None, so a missing distance and a distance equal to 0.0
(both falsy) are published as None. The rounding applied to a published
value is the external round(x, 2) builtin, taken as a parameter. -/
noncomputable def broadcast_distance_field_web (pyRound2 : ℝ → ℝ)
    (current_distance : Option ℝ) : Option ℝ :=
  match current_distance with
  | some d => if d ≠ 0 then some (pyRound2 d) else none
  | none => none

/-- The distance field of the Metrics Snapshot assembled by
BasketballTrackerPi.broadcast_data; the code is identical to the web
variant's. -/
noncomputable def broadcast_distance_field_pi (pyRound2 : ℝ → ℝ)
    (current_distance : Option ℝ) : Option ℝ :=
  match current_distance with
  | some d => if d ≠ 0 then some (pyRound2 d) else none
  | none => none

/-- C10 claim: in both the web and Pi variants the published distance field
is None when no distance has been computed and also when the last computed
distance is exactly 0 (Python truthiness of 0.0), and only a nonzero last
distance is published, as its rounded value — a zero distance is never
published as the number 0.00. -/
theorem C10_zero_distance_published_none (pyRound2 : ℝ → ℝ) :
    broadcast_distance_field_web pyRound2 none = none ∧
    broadcast_distance_field_web pyRound2 (some 0) = none ∧
    broadcast_distance_field_pi pyRound2 none = none ∧
    broadcast_distance_field_pi pyRound2 (some 0) = none ∧
    (∀ d : ℝ, d ≠ 0 →
      broadcast_distance_field_web pyRound2 (some d) = some (pyRound2 d) ∧
      broadcast_distance_field_pi pyRound2 (some d) = some (pyRound2 d)) := by
  refine ⟨rfl, ?_, rfl, ?_, ?_⟩
  · simp [broadcast_distance_field_web]
  · simp [broadcast_distance_field_pi]
  · intro d hd
    constructor
    · simp [broadcast_distance_field_web, hd]
    · simp [broadcast_distance_field_pi, hd]

/-- C10 witness: a nonzero distance of 1 m is published as its rounded value
(here with the rounding function taken as the identity). -/
theorem C10_zero_distance_published_none_witness :
    broadcast_distance_field_web id (some 1) = some (id 1) ∧
    broadcast_distance_field_pi id (some 1) = some (id 1) :=
  (C10_zero_distance_published_none id).2.2.2.2 1 (by norm_num)
